import Mathlib

/-!
# GeoGov Lite decision pipeline — verification development

Shallow embedding of the decision pipeline of `src/main.py` (signal
extraction, rules engine, decision merge, evidence ledger) together with
the response parsers of `src/brians_poc/backend/langchain_rag.py` and
`src/brians_poc/backend/main.py`, and proofs of the spec's testable
properties over that embedding.

Strings are modelled as Lean `String`/`List Char`; Python byte strings as
`List Nat` (each element < 256); Python `set` as `Finset String`.
-/

namespace GeoGov

/-! ## Basic character/string helpers (ASCII semantics of the Python code) -/

/-- Python `str.lower` restricted to ASCII (all text the pipeline matches on
is ASCII; `Char.toLower` lowers exactly the ASCII uppercase letters). -/
def lowerChars (cs : List Char) : List Char := cs.map Char.toLower

/-- Python `str.upper` restricted to ASCII. -/
def upperChars (cs : List Char) : List Char := cs.map Char.toUpper

/-- Python `\s` / `str.strip` whitespace, ASCII part. -/
def isSpaceCh (c : Char) : Bool :=
  c == ' ' || c == '\t' || c == '\n' || c == '\r' || c == '\x0b' || c == '\x0c'

/-- `needle` is a prefix of `hay` (char lists). -/
def isPre : List Char → List Char → Bool
  | [], _ => true
  | _ :: _, [] => false
  | a :: as, b :: bs => a == b && isPre as bs

/-- `needle` occurs as a contiguous substring of `hay` (Python `in`). -/
def containsSub (hay needle : List Char) : Bool :=
  match hay with
  | [] => needle.isEmpty
  | _ :: t => isPre needle hay || containsSub t needle

/-- Python `str.strip()`: drop leading and trailing whitespace. -/
def stripChars (cs : List Char) : List Char :=
  ((cs.dropWhile (fun c => isSpaceCh c)).reverse.dropWhile (fun c => isSpaceCh c)).reverse

/-- Python `str.lstrip(set)`: drop leading chars drawn from `set`. -/
def lstripSet (set : List Char) (cs : List Char) : List Char :=
  cs.dropWhile (fun c => set.contains c)

/-! ## SHA-256 (`hashlib.sha256(...).hexdigest()` in `compute_sha256`,
src/main.py lines 165-166), over UTF-8 bytes, words as `Nat` mod 2^32. -/

def M32 : Nat := 4294967296

def rotr (k n : Nat) : Nat := ((n >>> k) ||| (n <<< (32 - k))) % M32

def bnot32 (n : Nat) : Nat := n ^^^ (M32 - 1)

def sigmaS0 (w : Nat) : Nat := (rotr 7 w) ^^^ (rotr 18 w) ^^^ (w >>> 3)
def sigmaS1 (w : Nat) : Nat := (rotr 17 w) ^^^ (rotr 19 w) ^^^ (w >>> 10)
def sigmaB0 (a : Nat) : Nat := (rotr 2 a) ^^^ (rotr 13 a) ^^^ (rotr 22 a)
def sigmaB1 (e : Nat) : Nat := (rotr 6 e) ^^^ (rotr 11 e) ^^^ (rotr 25 e)
def chFn (e f g : Nat) : Nat := (e &&& f) ^^^ ((bnot32 e) &&& g)
def majFn (a b c : Nat) : Nat := (a &&& b) ^^^ (a &&& c) ^^^ (b &&& c)

/-- The 64 SHA-256 round constants of FIPS 180-4 (decimal rendering of the
usual hex table 428a2f98, 71374491, ...). -/
def shaK : List Nat :=
  [1116352408, 1899447441, 3049323471, 3921009573,
   961987163, 1508970993, 2453635748, 2870763221,
   3624381080, 310598401, 607225278, 1426881987,
   1925078388, 2162078206, 2614888103, 3248222580,
   3835390401, 4022224774, 264347078, 604807628,
   770255983, 1249150122, 1555081692, 1996064986,
   2554220882, 2821834349, 2952996808, 3210313671,
   3336571891, 3584528711, 113926993, 338241895,
   666307205, 773529912, 1294757372, 1396182291,
   1695183700, 1986661051, 2177026350, 2456956037,
   2730485921, 2820302411, 3259730800, 3345764771,
   3516065817, 3600352804, 4094571909, 275423344,
   430227734, 506948616, 659060556, 883997877,
   958139571, 1322822218, 1537002063, 1747873779,
   1955562222, 2024104815, 2227730452, 2361852424,
   2428436474, 2756734187, 3204031479, 3329325298]

structure Hash8 where
  a : Nat
  b : Nat
  c : Nat
  d : Nat
  e : Nat
  f : Nat
  g : Nat
  h : Nat
deriving DecidableEq

/-- The SHA-256 initial hash value of FIPS 180-4 (decimal rendering of
6a09e667, bb67ae85, ...). -/
def shaH0 : Hash8 :=
  ⟨1779033703, 3144134277, 1013904242, 2773480762,
   1359893119, 2600822924, 528734635, 1541459225⟩

/-- One compression round. -/
def shaRound (s : Hash8) (k w : Nat) : Hash8 :=
  let t1 := (s.h + sigmaB1 s.e + chFn s.e s.f s.g + k + w) % M32
  let t2 := (sigmaB0 s.a + majFn s.a s.b s.c) % M32
  ⟨(t1 + t2) % M32, s.a, s.b, s.c, (s.d + t1) % M32, s.e, s.f, s.g⟩

/-- Message-schedule extension: `acc` holds the scheduled words most recent
first; run `n` more steps of `w[t] = σ1 w[t-2] + w[t-7] + σ0 w[t-15] + w[t-16]`. -/
def shaExtend (acc : List Nat) : Nat → List Nat
  | 0 => acc
  | n + 1 =>
      shaExtend
        (((sigmaS1 (acc.getD 1 0) + acc.getD 6 0 + sigmaS0 (acc.getD 14 0)
            + acc.getD 15 0) % M32) :: acc) n

/-- Process one 512-bit block given as 16 big-endian 32-bit words. -/
def shaBlock (h : Hash8) (block : List Nat) : Hash8 :=
  let ws := (shaExtend block.reverse 48).reverse
  let s := (ws.zip shaK).foldl (fun s p => shaRound s p.2 p.1) h
  ⟨(h.a + s.a) % M32, (h.b + s.b) % M32, (h.c + s.c) % M32, (h.d + s.d) % M32,
   (h.e + s.e) % M32, (h.f + s.f) % M32, (h.g + s.g) % M32, (h.h + s.h) % M32⟩

/-- UTF-8 encoding of one scalar value. -/
def utf8Char (c : Char) : List Nat :=
  let n := c.toNat
  if n < 0x80 then [n]
  else if n < 0x800 then [0xc0 + n / 64, 0x80 + n % 64]
  else if n < 0x10000 then [0xe0 + n / 4096, 0x80 + (n / 64) % 64, 0x80 + n % 64]
  else [0xf0 + n / 262144, 0x80 + (n / 4096) % 64, 0x80 + (n / 64) % 64, 0x80 + n % 64]

def utf8Bytes (s : String) : List Nat := s.data.flatMap utf8Char

/-- SHA-256 padding: append `0x80`, zero bytes, then the 64-bit big-endian
bit length, to a multiple of 64 bytes. -/
def shaPad (msg : List Nat) : List Nat :=
  let L := msg.length
  let k := (119 - (L % 64)) % 64
  let bits := 8 * L
  msg ++ [0x80] ++ List.replicate k 0 ++
    [(bits >>> 56) &&& 255, (bits >>> 48) &&& 255, (bits >>> 40) &&& 255,
     (bits >>> 32) &&& 255, (bits >>> 24) &&& 255, (bits >>> 16) &&& 255,
     (bits >>> 8) &&& 255, bits &&& 255]

/-- Group bytes into big-endian 32-bit words. -/
def toWords : List Nat → List Nat
  | b0 :: b1 :: b2 :: b3 :: rest =>
      (b0 * 16777216 + b1 * 65536 + b2 * 256 + b3) :: toWords rest
  | _ => []

/-- Split a word list into 16-word blocks (fuel-based structural recursion;
`fuel = l.length` always suffices since each step consumes at least one word). -/
def toBlocksF : Nat → List Nat → List (List Nat)
  | 0, _ => []
  | _, [] => []
  | fuel + 1, l => (l.take 16) :: toBlocksF fuel (l.drop 16)

def toBlocks (l : List Nat) : List (List Nat) := toBlocksF l.length l

def hexDigit (n : Nat) : Char :=
  if n < 10 then Char.ofNat (48 + n) else Char.ofNat (87 + n)

/-- Lowercase hex rendering of a 32-bit word, exactly 8 digits. -/
def word8Hex (n : Nat) : List Char :=
  [hexDigit ((n >>> 28) &&& 15), hexDigit ((n >>> 24) &&& 15),
   hexDigit ((n >>> 20) &&& 15), hexDigit ((n >>> 16) &&& 15),
   hexDigit ((n >>> 12) &&& 15), hexDigit ((n >>> 8) &&& 15),
   hexDigit ((n >>> 4) &&& 15), hexDigit (n &&& 15)]

def sha256Core (bytes : List Nat) : Hash8 :=
  (toBlocks (toWords (shaPad bytes))).foldl shaBlock shaH0

def hash8Hex (h : Hash8) : List Char :=
  word8Hex h.a ++ word8Hex h.b ++ word8Hex h.c ++ word8Hex h.d ++
  word8Hex h.e ++ word8Hex h.f ++ word8Hex h.g ++ word8Hex h.h

/-- `compute_sha256` (src/main.py lines 165-166):
`hashlib.sha256(data.encode('utf-8')).hexdigest()`. -/
def compute_sha256 (data : String) : String :=
  String.mk (hash8Hex (sha256Core (utf8Bytes data)))

/-! ## Merkle aggregation (`merkle_root`, src/main.py lines 168-182) -/

/-- One reduction level of `merkle_root`: the `for i in range(0, len, 2)` loop
body — adjacent pairs concatenated and re-hashed, a trailing odd element
concatenated with itself. -/
def pairStep : List String → List String
  | [] => []
  | [a] => [compute_sha256 (a ++ a)]
  | a :: b :: rest => compute_sha256 (a ++ b) :: pairStep rest

theorem pairStep_length : ∀ l : List String, (pairStep l).length = (l.length + 1) / 2
  | [] => rfl
  | [_] => by simp [pairStep]
  | _ :: _ :: rest => by
      simp [pairStep, pairStep_length rest]
      omega

/-- `merkle_root` (src/main.py lines 168-182): empty list yields `""`,
singleton returns the element, otherwise recurse on the reduced level. -/
def merkle_root : List String → String
  | [] => ""
  | [h] => h
  | a :: b :: rest => merkle_root (pairStep (a :: b :: rest))
termination_by l => l.length
decreasing_by
  simp [pairStep, pairStep_length]
  omega

/-- Modelled from the spec's wording of one Merkle reduction level
(spec.md section 4.5): pairwise-concatenate and re-hash, duplicating the
final element when the level has odd length. Used to check `merkle_root`
against the spec's description. -/
def chunkPairs : List String → List String
  | a :: b :: rest => compute_sha256 (a ++ b) :: chunkPairs rest
  | _ => []

/-- Modelled from the spec: a level reduction that first duplicates the last
element of an odd-length level, then hashes adjacent pairs. -/
def specLevel (hs : List String) : List String :=
  chunkPairs (if hs.length % 2 = 1 then hs ++ [hs.getLastD ""] else hs)

/-! ## Signal extraction (`SignalExtractor`, src/main.py lines 185-214)

The pattern table (lines 187-195) is a dict of regexes searched with
`re.search(pattern, text_lower, re.IGNORECASE)` where `text_lower` is the
already-lowercased concatenation of title, description and hints.  Each
regex below is translated into an equivalent explicit matcher over the
lowercased character list:

* an alternation of literal words is containment of one of the literals
  (an optional trailing `d?` or `e?` adds nothing to containment of the
  mandatory stem);
* `A\s*B` is containment of `A`, any run of whitespace, then `B`
  (greedily dropping whitespace is equivalent because `B` never starts
  with a whitespace character);
* `\bW\b` is containment of `W` with no word character (`[a-z0-9_]`)
  adjacent on either side. -/

structure FeatureArtifact where
  feature_id : String
  title : String
  description : String
  docs : List String
  code_hints : List String
  tags : List String
deriving DecidableEq

/-- `SignalSet` (src/main.py lines 123-129); Python `set` modelled as
`Finset String`. -/
structure SignalSet where
  tags : Finset String
  text_signals : Finset String
  hints : List String
deriving DecidableEq

def wordChar (c : Char) : Bool :=
  ('a' ≤ c && c ≤ 'z') || ('A' ≤ c && c ≤ 'Z') || ('0' ≤ c && c ≤ '9') || c == '_'

def boundaryOk : Option Char → Bool
  | none => true
  | some p => !wordChar p

def nextBoundaryOk : List Char → Bool
  | [] => true
  | c :: _ => !wordChar c

/-- Scan for `w` occurring with word boundaries on both sides, tracking the
previous character. -/
def wbAux (w : List Char) (prev : Option Char) : List Char → Bool
  | [] => false
  | c :: rest =>
      (isPre w (c :: rest) && boundaryOk prev && nextBoundaryOk (List.drop w.length (c :: rest)))
        || wbAux w (some c) rest

/-- Occurrence of `\b w \b` in `hay` (for `w` made of word characters). -/
def containsWB (hay w : List Char) : Bool := wbAux w none hay

/-- Does `a` followed by `\s*` followed by `b` match at the head of `l`?
(`b` must not start with whitespace, which holds for every use below.) -/
def gapAt (a b l : List Char) : Bool :=
  isPre a l && isPre b ((List.drop a.length l).dropWhile (fun c => isSpaceCh c))

/-- Occurrence of `a\s*b` anywhere in `hay` (for nonempty `a`). -/
def containsGap (hay : List Char) (a b : List Char) : Bool :=
  match hay with
  | [] => false
  | _ :: t => gapAt a b hay || containsGap t a b

/-- Does `a\s*b\s*c` match at the head of `l`? -/
def gap3At (a b c l : List Char) : Bool :=
  isPre a l &&
    (let r1 := (List.drop a.length l).dropWhile (fun ch => isSpaceCh ch)
     isPre b r1 && isPre c ((List.drop b.length r1).dropWhile (fun ch => isSpaceCh ch)))

/-- Occurrence of `a\s*b\s*c` anywhere in `hay` (for nonempty `a`). -/
def containsGap3 (hay : List Char) (a b c : List Char) : Bool :=
  match hay with
  | [] => false
  | _ :: t => gap3At a b c hay || containsGap3 t a b c

def reSub (t : List Char) (s : String) : Bool := containsSub t s.data
def reGap (t : List Char) (a b : String) : Bool := containsGap t a.data b.data
def reGap3 (t : List Char) (a b c : String) : Bool := containsGap3 t a.data b.data c.data
def reWB (t : List Char) (w : String) : Bool := containsWB t w.data

/-- regex `personali[sz]ed?|ranking|feed|recommendation`. -/
def matchPersonalization (t : List Char) : Bool :=
  reSub t "personalise" || reSub t "personalize" || reSub t "ranking" ||
  reSub t "feed" || reSub t "recommendation"

/-- regex `minor|under\s*18|teen|age\s*gate|parental`. -/
def matchMinors (t : List Char) : Bool :=
  reSub t "minor" || reGap t "under" "18" || reSub t "teen" ||
  reGap t "age" "gate" || reSub t "parental"

/-- regex `appeal|takedown|notice|moderat|remov`. -/
def matchModeration (t : List Char) : Bool :=
  reSub t "appeal" || reSub t "takedown" || reSub t "notice" ||
  reSub t "moderat" || reSub t "remov"

/-- regex `\bEU\b|EEA|Europe|France|Germany|Italy|Spain` (text is lowercased
and the search is case-insensitive, so literals are matched lowercase). -/
def matchGeoEu (t : List Char) : Bool :=
  reWB t "eu" || reSub t "eea" || reSub t "europe" || reSub t "france" ||
  reSub t "germany" || reSub t "italy" || reSub t "spain"

/-- regex `\bUS\b|United\s*States|America|California|Florida|Utah`. -/
def matchGeoUs (t : List Char) : Bool :=
  reWB t "us" || reGap t "united" "states" || reSub t "america" ||
  reSub t "california" || reSub t "florida" || reSub t "utah"

/-- regex `NCMEC|CSAM|child\s*sexual\s*abuse|safety`. -/
def matchSafety (t : List Char) : Bool :=
  reSub t "ncmec" || reSub t "csam" || reGap3 t "child" "sexual" "abuse" ||
  reSub t "safety"

/-- regex `advertis|targeting|ad\s*serv|marketing`. -/
def matchAds (t : List Char) : Bool :=
  reSub t "advertis" || reSub t "targeting" || reGap t "ad" "serv" ||
  reSub t "marketing"

/-- The fixed ordered pattern table of `SignalExtractor.__init__`
(src/main.py lines 187-195). -/
def patternTable : List (String × (List Char → Bool)) :=
  [("personalization", matchPersonalization),
   ("minors", matchMinors),
   ("moderation", matchModeration),
   ("geo_eu", matchGeoEu),
   ("geo_us", matchGeoUs),
   ("safety", matchSafety),
   ("ads", matchAds)]

/-- The text `f"{artifact.title} {artifact.description} {' '.join(artifact.code_hints)}"`
(src/main.py line 204). -/
def artifactText (a : FeatureArtifact) : String :=
  a.title ++ " " ++ a.description ++ " " ++ String.intercalate " " a.code_hints

/-- `SignalExtractor.extract_signals` (src/main.py lines 197-214): tags
copied from the artifact, text signals from the pattern table matched
against the lowercased concatenated text, hints copied from code hints. -/
def extract_signals (a : FeatureArtifact) : SignalSet :=
  let t := lowerChars (artifactText a).data
  { tags := a.tags.toFinset,
    text_signals := ((patternTable.filter (fun p => p.2 t)).map (fun p => p.1)).toFinset,
    hints := a.code_hints }

/-! ## Rules engine (`RulesEngine`, src/main.py lines 219-291) -/

/-- The optional `when_any` mapping of a rule record, with its optional
`tags` and `text` entries. -/
structure WhenAny where
  tags : Option (List String)
  text : Option (List String)
deriving DecidableEq

/-- One rule record of the policy document as read by `RulesEngine.evaluate`:
`id` defaults to `""`, `verdict` to `False`, `regulations` to `[]`;
the four condition keys and `reason` are optional. -/
structure Rule where
  id : String
  verdict : Bool
  when_any : Option WhenAny
  when_any_text : Option (List String)
  when_all_text : Option (List String)
  and_text : Option (List String)
  regulations : List String
  reason : Option String
deriving DecidableEq

/-- `Verdict` (src/main.py lines 131-135). -/
structure Verdict where
  ok : Bool
  matched_ids : List String
  regulations : List String
  reason : String
deriving DecidableEq

/-- `RulesEngine._text_contains` (src/main.py lines 232-234):
case-insensitive substring containment of any term. -/
def text_contains (text : String) (terms : List String) : Bool :=
  terms.any (fun term => containsSub (lowerChars text.data) (lowerChars term.data))

/-- `RulesEngine._check_tags` (src/main.py lines 236-237). -/
def check_tags (signals : SignalSet) (required_tags : List String) : Bool :=
  required_tags.any (fun tag => decide (tag ∈ signals.tags))

/-- `RulesEngine._check_text_signals` (src/main.py lines 239-240). -/
def check_text_signals (signals : SignalSet) (required_signals : List String) : Bool :=
  required_signals.any (fun sig => decide (sig ∈ signals.text_signals))

/-- The rule-condition test of `RulesEngine.evaluate` (src/main.py lines
250-275).  Note the Python operator precedence on line 275:
`when_any_match or ('when_any' not in rule and 'when_any_text' not in rule)`. -/
def ruleMatches (signals : SignalSet) (text : String) (r : Rule) : Bool :=
  let when_any_match :=
    (match r.when_any with
     | some wa =>
         (match wa.tags with
          | some ts => check_tags signals ts
          | none => false) ||
         (match wa.text with
          | some ws => text_contains text ws
          | none => false)
     | none => false) ||
    (match r.when_any_text with
     | some ws => text_contains text ws
     | none => false)
  let when_all_match :=
    match r.when_all_text with
    | some ts => ts.all (fun term => text_contains text [term])
    | none => true
  let and_text_match :=
    match r.and_text with
    | some ts => ts.all (fun term => text_contains text [term])
    | none => true
  (when_any_match || (r.when_any.isNone && r.when_any_text.isNone)) &&
    when_all_match && and_text_match

/-- `rule.get('reason', f"Rule {rule_id} triggered")` (src/main.py line 283). -/
def defaultReason (r : Rule) : String := r.reason.getD ("Rule " ++ r.id ++ " triggered")

def noMatchReason : String := "No compliance requirements detected"

/-- `RulesEngine.evaluate` (src/main.py lines 242-291): scan rules in order;
the first matching rule with a true verdict returns immediately with just its
own id; otherwise the ids of all matching rules are accumulated into an
`ok=false` verdict. -/
def evaluate (signals : SignalSet) (text : String) : List Rule → Verdict
  | [] => ⟨false, [], [], noMatchReason⟩
  | r :: rest =>
      if ruleMatches signals text r then
        if r.verdict then
          ⟨true, [r.id], r.regulations, defaultReason r⟩
        else
          let v := evaluate signals text rest
          if v.ok then v else { v with matched_ids := r.id :: v.matched_ids }
      else evaluate signals text rest

/-! ## Decision merge (`analyze`, src/main.py lines 1018-1057)

The parts of `analyze` that decide the final boolean/reasoning/regulations/
matched-rules are modelled as a pure function of the policy toggle, the
loaded rules, the extracted signals, the artifact text, the judge output and
the finder claims.  `JudgeOut.confidence` and `Decision.confidence` are
Python floats; the pipeline never computes with them (they are only copied
and serialized), so they are modelled by their JSON numeral rendering as a
`String`. -/

/-- A parsed finder claim: the Python value is either a plain string or a
dict of strings (`analyze` checks `isinstance(claim, dict)`). -/
inductive PClaim where
  | str (s : String)
  | dict (kvs : List (String × String))
deriving DecidableEq

def dictLookup (kvs : List (String × String)) (k : String) : Option String :=
  (kvs.find? (fun p => p.1 == k)).map (fun p => p.2)

/-- Regulation extraction from finder claims (src/main.py lines 1030-1033):
for each claim that is a dict with a `"regulation"` key, collect its value. -/
def claimRegulations (claims : List PClaim) : List String :=
  claims.filterMap (fun c =>
    match c with
    | .dict kvs => dictLookup kvs "regulation"
    | .str _ => none)

/-- `JudgeOut` (src/main.py lines 117-121). -/
structure JudgeOut where
  signals : List String
  notes : String
  confidence : String
  llm_decision : Option Bool
deriving DecidableEq

/-- The four decision-determining outputs of the merge in `analyze`. -/
structure MergeOut where
  needs_geo_compliance : Bool
  reasoning : String
  regulations : List String
  matched_rules : List String
deriving DecidableEq

/-- The decision logic of `analyze` (src/main.py lines 1018-1042):
`use_llm_decision = not settings.use_rules_engine`; in the LLM branch the
boolean is `judge_out.llm_decision if ... is not None else False` and the
rules engine is never consulted; in the rules branch the verdict of
`rules_engine.evaluate(sigs, text)` supplies every field and the judge
output is never consulted. -/
def decisionMerge (use_rules_engine : Bool) (rules : List Rule) (sigs : SignalSet)
    (text : String) (judge : JudgeOut) (finderClaims : List PClaim) : MergeOut :=
  let use_llm_decision := !use_rules_engine
  if use_llm_decision then
    ⟨judge.llm_decision.getD false, judge.notes, claimRegulations finderClaims,
     ["LLM_DECISION"]⟩
  else
    let v := evaluate sigs text rules
    ⟨v.ok, v.reason, v.regulations, v.matched_ids⟩

/-! ## Evidence ledger (`EvidenceSystem.write_receipt`, src/main.py lines
930-944)

`decision.model_dump()` produces a dict in field-definition order;
`orjson.dumps(..., option=orjson.OPT_SORT_KEYS)` serializes it with keys
sorted recursively; the written ledger line uses `orjson.dumps` without
sorting, i.e. field-definition order.  Both serializations are modelled as
explicit string builders. -/

structure Citation where
  source : String
  snippet : String
deriving DecidableEq

/-- `Decision` (src/main.py lines 94-105); `confidence` is modelled by its
JSON numeral rendering (see the decision-merge section). -/
structure Decision where
  feature_id : String
  needs_geo_compliance : Bool
  reasoning : String
  regulations : List String
  signals : List String
  citations : List Citation
  confidence : String
  matched_rules : List String
  hash : String
  ts : String
  policy_version : String
deriving DecidableEq

/-- orjson escaping of one character inside a JSON string. -/
def escChar (c : Char) : List Char :=
  if c == '"' then ['\\', '"']
  else if c == '\\' then ['\\', '\\']
  else if c == '\x08' then ['\\', 'b']
  else if c == '\x0c' then ['\\', 'f']
  else if c == '\n' then ['\\', 'n']
  else if c == '\r' then ['\\', 'r']
  else if c == '\t' then ['\\', 't']
  else if c.toNat < 32 then
    ['\\', 'u', '0', '0', hexDigit (c.toNat / 16), hexDigit (c.toNat % 16)]
  else [c]

def jsonStr (s : String) : String :=
  "\"" ++ String.mk (s.data.flatMap escChar) ++ "\""

def jsonStrList (xs : List String) : String :=
  "[" ++ String.intercalate "," (xs.map jsonStr) ++ "]"

def jsonBool (b : Bool) : String := if b then "true" else "false"

/-- A `Citation` sub-dict with sorted keys (`snippet` before `source`). -/
def jsonCitationSorted (c : Citation) : String :=
  "\x7b\"snippet\":" ++ jsonStr c.snippet ++ ",\"source\":" ++ jsonStr c.source ++ "\x7d"

/-- A `Citation` sub-dict in field-definition order (`source`, `snippet`). -/
def jsonCitationPlain (c : Citation) : String :=
  "\x7b\"source\":" ++ jsonStr c.source ++ ",\"snippet\":" ++ jsonStr c.snippet ++ "\x7d"

/-- The canonical serialization hashed by `write_receipt` (src/main.py lines
931-934): `model_dump()`, `hash` key popped, keys sorted
(`citations, confidence, feature_id, matched_rules, needs_geo_compliance,
policy_version, reasoning, regulations, signals, ts`). -/
def canonical_json (d : Decision) : String :=
  "\x7b\"citations\":[" ++ String.intercalate "," (d.citations.map jsonCitationSorted) ++
  "],\"confidence\":" ++ d.confidence ++
  ",\"feature_id\":" ++ jsonStr d.feature_id ++
  ",\"matched_rules\":" ++ jsonStrList d.matched_rules ++
  ",\"needs_geo_compliance\":" ++ jsonBool d.needs_geo_compliance ++
  ",\"policy_version\":" ++ jsonStr d.policy_version ++
  ",\"reasoning\":" ++ jsonStr d.reasoning ++
  ",\"regulations\":" ++ jsonStrList d.regulations ++
  ",\"signals\":" ++ jsonStrList d.signals ++
  ",\"ts\":" ++ jsonStr d.ts ++ "\x7d"

/-- The ledger line written by `write_receipt` (src/main.py line 942):
`orjson.dumps(decision.model_dump())`, i.e. full dump with `hash`, keys in
field-definition order. -/
def line_json (d : Decision) : String :=
  "\x7b\"feature_id\":" ++ jsonStr d.feature_id ++
  ",\"needs_geo_compliance\":" ++ jsonBool d.needs_geo_compliance ++
  ",\"reasoning\":" ++ jsonStr d.reasoning ++
  ",\"regulations\":" ++ jsonStrList d.regulations ++
  ",\"signals\":" ++ jsonStrList d.signals ++
  ",\"citations\":[" ++ String.intercalate "," (d.citations.map jsonCitationPlain) ++
  "],\"confidence\":" ++ d.confidence ++
  ",\"matched_rules\":" ++ jsonStrList d.matched_rules ++
  ",\"hash\":" ++ jsonStr d.hash ++
  ",\"ts\":" ++ jsonStr d.ts ++
  ",\"policy_version\":" ++ jsonStr d.policy_version ++ "\x7d"

/-- The hash computed by `write_receipt` (src/main.py lines 936-938). -/
def receiptHash (d : Decision) : String :=
  "sha256-" ++ compute_sha256 (canonical_json d)

/-- The decision as persisted: hash field overwritten with the computed
receipt hash (src/main.py line 938). -/
def writtenDecision (d : Decision) : Decision := { d with hash := receiptHash d }

/-- The full `write_receipt` effect: the line appended to the ledger. -/
def receiptLine (d : Decision) : String := line_json (writtenDecision d)

/-- Re-verification of a persisted receipt from its own content: the stored
hash equals `"sha256-"` plus the digest of the sorted-key serialization with
the hash field removed (`canonical_json` reads no hash field). -/
def verifyReceipt (d : Decision) : Bool :=
  d.hash == "sha256-" ++ compute_sha256 (canonical_json d)

/-- `Decision.hash` with the hash field blanked, for stating that the
canonical form ignores it. -/
def eraseHash (d : Decision) : Decision := { d with hash := "" }

/-! ## Ensemble response parsers

* `LLMClient._parse_finder_response` (src/brians_poc/backend/main.py lines
  369-395): section headers by substring on the stripped line, items only
  from bullet lines.
* `_parse_compliance_response` with `response_type="finder"`
  (src/brians_poc/backend/langchain_rag.py lines 429-529): the
  natural-language path (a stripped response starting with a left brace
  first attempts `json.loads`; that branch is outside this model and all
  inputs used below avoid it), plus the exception fallback of lines
  524-525. -/

inductive FSection where
  | none
  | signals
  | claims
  | citations
deriving DecidableEq

/-- `FinderOut` (src/main.py lines 107-110 and
src/brians_poc/backend/main.py): claims are dicts. -/
structure FinderOut where
  signals : List String
  claims : List PClaim
  citations : List String
deriving DecidableEq

/-- Python `str.split('\n')`: split on every newline, keeping empty pieces. -/
def splitLinesAux : List Char → List Char → List (List Char)
  | [], cur => [cur.reverse]
  | c :: rest, cur =>
      if c == '\n' then cur.reverse :: splitLinesAux rest []
      else splitLinesAux rest (c :: cur)

def splitLines (s : String) : List String :=
  (splitLinesAux s.data []).map String.mk

def upContains (line : List Char) (key : String) : Bool :=
  containsSub (upperChars line) key.data

def startsWithCh (cs : List Char) (c : Char) : Bool :=
  match cs with
  | [] => false
  | a :: _ => a == c

/-- Loop body of `_parse_finder_response`: fold over lines with the active
section; items are appended in encounter order. -/
def parseFinderGo : List String → FSection → FinderOut → FinderOut
  | [], _, acc => acc
  | l :: rest, sec, acc =>
      let line := stripChars l.data
      if upContains line "SIGNAL" then parseFinderGo rest .signals acc
      else if upContains line "CLAIM" then parseFinderGo rest .claims acc
      else if upContains line "CITATION" then parseFinderGo rest .citations acc
      else if startsWithCh line '-' || startsWithCh line '•' then
        let content := String.mk (stripChars (lstripSet ['-', '•'] line))
        if content.data.isEmpty then parseFinderGo rest sec acc
        else
          match sec with
          | .signals => parseFinderGo rest sec { acc with signals := acc.signals ++ [content] }
          | .claims =>
              parseFinderGo rest sec
                { acc with claims := acc.claims ++
                    [PClaim.dict [("claim", content), ("regulation", content)]] }
          | .citations => parseFinderGo rest sec { acc with citations := acc.citations ++ [content] }
          | .none => parseFinderGo rest sec acc
      else parseFinderGo rest sec acc

/-- `LLMClient._parse_finder_response` (src/brians_poc/backend/main.py lines
369-395). -/
def parse_finder_response (response : String) : FinderOut :=
  parseFinderGo (splitLines response) .none ⟨[], [], []⟩

/-- One parsed claim of the `_parse_compliance_response` finder branch
(src/brians_poc/backend/langchain_rag.py lines 464-470); the `citations`
entry of the dict is always the empty list. -/
structure CFClaim where
  regulation : String
  why : String
deriving DecidableEq

/-- Result of the `_parse_compliance_response` finder branch; `raw_response`
is populated only by the exception fallback (lines 524-525). -/
structure ComplianceFinder where
  signals : List String
  claims : List CFClaim
  citations : List String
  raw_response : Option String
deriving DecidableEq

/-- Python `line.split(':', 1)` when a colon is present. -/
def splitFirstColon (cs : List Char) : List Char × List Char :=
  (cs.takeWhile (fun c => !(c == ':')), (cs.dropWhile (fun c => !(c == ':'))).drop 1)

/-- Loop body of the `_parse_compliance_response` finder branch (lines
443-474); note line 458's Python precedence:
`(current_section == 'signals' and line.startswith(('-','*','•'))) or len(line) > 2`,
so any stripped line longer than two characters is filed into `signals`
regardless of the active section. -/
def parseComplianceGo : List String → FSection → ComplianceFinder → ComplianceFinder
  | [], _, acc => acc
  | l :: rest, sec, acc =>
      let line := stripChars l.data
      if line.isEmpty then parseComplianceGo rest sec acc
      else if upContains line "SIGNALS:" then parseComplianceGo rest .signals acc
      else if upContains line "CLAIMS:" then parseComplianceGo rest .claims acc
      else if upContains line "CITATIONS:" then parseComplianceGo rest .citations acc
      else if (decide (sec = .signals) &&
                (startsWithCh line '-' || startsWithCh line '*' || startsWithCh line '•'))
              || decide (line.length > 2) then
        let signal := String.mk (stripChars (lstripSet ['-', '*', '•'] line))
        if signal.data.isEmpty then parseComplianceGo rest sec acc
        else parseComplianceGo rest sec { acc with signals := acc.signals ++ [signal] }
      else if decide (sec = .claims) then
        if line.contains ':' then
          let parts := splitFirstColon line
          parseComplianceGo rest sec
            { acc with claims := acc.claims ++
                [⟨String.mk (stripChars parts.1), String.mk (stripChars parts.2)⟩] }
        else parseComplianceGo rest sec acc
      else if decide (sec = .citations) then
        let citation := String.mk (stripChars (lstripSet ['-', '*', '•'] line))
        if citation.data.isEmpty then parseComplianceGo rest sec acc
        else parseComplianceGo rest sec { acc with citations := acc.citations ++ [citation] }
      else parseComplianceGo rest sec acc

/-- The natural-language finder path of `_parse_compliance_response`
(src/brians_poc/backend/langchain_rag.py lines 443-474). -/
def parse_compliance_finder (response : String) : ComplianceFinder :=
  parseComplianceGo (splitLines response) .none ⟨[], [], [], none⟩

/-- The exception fallback of `_parse_compliance_response` for the finder
type (src/brians_poc/backend/langchain_rag.py lines 524-525): empty lists
plus the raw text under `raw_response`. -/
def complianceFinderFallback (response : String) : ComplianceFinder :=
  ⟨[], [], [], some response⟩

/-! ## Batch endpoint (`bulk_analyze`, src/main.py lines 1088-1109)

A failing `analyze` call (its try/except `continue`) is modelled by an
oracle returning `none`; the endpoint returns HTTP 400 on an empty batch,
otherwise a response holding only the count of successes and the CSV path
(`export_csv` returns its default filename). -/

structure BulkResponse where
  count : Nat
  csv_path : String
deriving DecidableEq

def bulk_analyze (analyzeFn : FeatureArtifact → Option Decision)
    (items : List FeatureArtifact) : Except Nat BulkResponse :=
  if items.isEmpty then .error 400
  else .ok ⟨(items.filterMap analyzeFn).length, "data/outputs.csv"⟩

/-! ## Policy document loading (`RulesEngine._load_rules`, src/main.py lines
224-230)

The states a policy file can be in, and what `_load_rules` does for each:
only `FileNotFoundError` is caught; `yaml.safe_load` raising `YAMLError`
propagates, and a parse result that is `None` or not a mapping makes
`data.get('rules', [])` raise `AttributeError`, which also propagates. -/

inductive PolicyDoc where
  | absent
  | unparsable
  | parsedNonMapping
  | parsedMapping (rules : Option (List Rule))

/-- `RulesEngine._load_rules` with exceptions made explicit: `ok` is a
returned rule list, `error` an uncaught exception type name. -/
def load_rules : PolicyDoc → Except String (List Rule)
  | .absent => .ok []
  | .unparsable => .error "yaml.YAMLError"
  | .parsedNonMapping => .error "AttributeError"
  | .parsedMapping rs => .ok (rs.getD [])

/-! ## Spec-side condition semantics for comparison (claim C3) -/

/-- Modelled from the claim's words: the rule's conditions match iff every
condition kind present in the rule is satisfied — AND across the four kinds
(any-of-tags, any-of-substrings, `when_all_text`, `and_text`), a kind that
is absent being vacuously satisfied. -/
def claimCondMatches (signals : SignalSet) (text : String) (r : Rule) : Bool :=
  ((r.when_any.bind WhenAny.tags).elim true (check_tags signals)) &&
  ((r.when_any.bind WhenAny.text).elim true (text_contains text)) &&
  (r.when_any_text.elim true (text_contains text)) &&
  (r.when_all_text.elim true (fun ts => ts.all (fun term => text_contains text [term]))) &&
  (r.and_text.elim true (fun ts => ts.all (fun term => text_contains text [term])))

/-- The amended condition semantics: when `when_any` or `when_any_text` is
present, their three any-kinds form one disjunctive group (OR across the
any-kinds, an absent any-kind contributing false, so an empty `when_any`
mapping never matches); AND with `when_all_text` and `and_text`, which
require every listed substring. -/
def amendedCondMatches (signals : SignalSet) (text : String) (r : Rule) : Bool :=
  (!(r.when_any.isSome || r.when_any_text.isSome) ||
     ((r.when_any.bind WhenAny.tags).elim false (check_tags signals) ||
      (r.when_any.bind WhenAny.text).elim false (text_contains text) ||
      r.when_any_text.elim false (text_contains text))) &&
  (r.when_all_text.elim true (fun ts => ts.all (fun term => text_contains text [term]))) &&
  (r.and_text.elim true (fun ts => ts.all (fun term => text_contains text [term])))

/-! ## Concrete fixtures used by counterexamples and witnesses -/

/-- A rule whose `when_any` block lists both tags and text terms. -/
def c3Rule : Rule :=
  ⟨"r1", true, some ⟨some ["kids"], some ["zzz"]⟩, none, none, none, ["REG"], none⟩

def c3Signals : SignalSet := ⟨{"kids"}, ∅, []⟩

/-- The spec's scenario rule: tags contain `minors` AND the text contains
both `under 18` and `targeted advertising`, verdict true. -/
def c2RuleA : Rule :=
  ⟨"minors_rule", true, some ⟨some ["minors"], none⟩, none,
   some ["under 18", "targeted advertising"], none,
   ["Utah Social Media Regulation Act"], some "Minors protection"⟩

/-- A later rule that also matches the same artifact with verdict true. -/
def c2RuleB : Rule :=
  ⟨"ads_rule", true, none, some ["advertising"], none, none, ["DSA"], none⟩

def c2Signals : SignalSet := ⟨{"minors"}, ∅, []⟩

def c2Text : String := "Feature targets under 18 users with targeted advertising"

def c6A1 : FeatureArtifact :=
  ⟨"id1", "Teen feed", "personalized ranking in the EU", ["doc1"], ["hint.py"], ["minors"]⟩

def c6A2 : FeatureArtifact :=
  ⟨"id2", "Teen feed", "personalized ranking in the EU", [], ["hint.py"], ["minors"]⟩

def c5DecA : Decision :=
  ⟨"feat-1", true, "Minors in the EU", ["GDPR"], ["minors", "geo_eu"],
   [⟨"doc.pdf", "snippet text"⟩], "0.8", ["rule_a"], "",
   "2024-01-01T00:00:00+00:00", "v0.1.0"⟩

/-- `c5DecA` with only the confidence changed, 0.8 to 0.81. -/
def c5DecB : Decision :=
  ⟨"feat-1", true, "Minors in the EU", ["GDPR"], ["minors", "geo_eu"],
   [⟨"doc.pdf", "snippet text"⟩], "0.81", ["rule_a"], "",
   "2024-01-01T00:00:00+00:00", "v0.1.0"⟩

/-- `c5DecA` with only the (ignored) hash field changed. -/
def c5DecAHash : Decision :=
  ⟨"feat-1", true, "Minors in the EU", ["GDPR"], ["minors", "geo_eu"],
   [⟨"doc.pdf", "snippet text"⟩], "0.8", ["rule_a"], "sha256-stale",
   "2024-01-01T00:00:00+00:00", "v0.1.0"⟩

def c9Decision : Decision :=
  ⟨"f1", false, "r", [], [], [], "0.7", [], "", "t", "v0.1.0"⟩

def c9Good : FeatureArtifact := ⟨"ok", "t", "d", [], [], []⟩

def c9Bad : FeatureArtifact := ⟨"bad", "t", "d", [], [], []⟩

/-- An analysis oracle under which artifact `ok` succeeds and every other
artifact fails (models an `analyze` exception caught by the batch loop). -/
def c9Analyze (a : FeatureArtifact) : Option Decision :=
  if a.feature_id == "ok" then some c9Decision else none

/-! ## Helper lemmas -/

/-- The canonical serialization reads no hash field, so blanking it changes
nothing. -/
theorem canonical_json_eraseHash (d : Decision) :
    canonical_json (eraseHash d) = canonical_json d := by
  cases d
  rfl

/-- The canonical serialization of the persisted decision equals that of the
original decision (only the hash field was overwritten). -/
theorem canonical_json_writtenDecision (d : Decision) :
    canonical_json (writtenDecision d) = canonical_json d := by
  cases d
  rfl

/-! ## Claim theorems -/

/-- C1. Decision-merge policy exclusivity: with `use_rules_engine = true`
the final boolean equals the Rules Engine verdict's `ok` and is unchanged
under any replacement of the Arbiter's `llm_decision`; with
`use_rules_engine = false` the final boolean equals the Arbiter's explicit
decision when present and `false` otherwise, and the whole merge output is
unchanged under any change of rules, signals or text (so no Rules Engine
verdict can influence it). -/
theorem decision_merge_policy_exclusivity :
    (∀ (rules : List Rule) (sigs : SignalSet) (text : String) (judge : JudgeOut)
        (claims : List PClaim) (b : Option Bool),
      (decisionMerge true rules sigs text judge claims).needs_geo_compliance
          = (evaluate sigs text rules).ok
        ∧ (decisionMerge true rules sigs text { judge with llm_decision := b } claims).needs_geo_compliance
          = (decisionMerge true rules sigs text judge claims).needs_geo_compliance)
    ∧ (∀ (rules rules' : List Rule) (sigs sigs' : SignalSet) (text text' : String)
        (judge : JudgeOut) (claims : List PClaim),
      (decisionMerge false rules sigs text judge claims).needs_geo_compliance
          = judge.llm_decision.getD false
        ∧ decisionMerge false rules sigs text judge claims
          = decisionMerge false rules' sigs' text' judge claims) :=
  ⟨fun _ _ _ _ _ _ => ⟨rfl, rfl⟩, fun _ _ _ _ _ _ _ _ => ⟨rfl, rfl⟩⟩

/-- C3 counterexample. A rule whose `when_any` block lists both tags and
text terms matches in the code as soon as the tags alone match (OR between
the any-kinds), while the claim's AND-across-kinds semantics rejects it:
at `c3Rule` with signals tagged `kids` and text `"hello"` the code matches
but the claimed semantics does not. -/
theorem rule_condition_claim_counterexample :
    ruleMatches c3Signals "hello" c3Rule = true
      ∧ claimCondMatches c3Signals "hello" c3Rule = false := by
  constructor <;> decide

/-- C3 amended. The code's condition semantics: the three any-kinds
(`when_any.tags`, `when_any.text`, `when_any_text`) form one disjunctive
group that must hold whenever `when_any` or `when_any_text` is present
(OR within the group, an absent any-kind contributing false), ANDed with
`when_all_text` and `and_text`, each of which requires all of its
case-insensitive substrings; a rule with no any-kind present passes the
group vacuously. -/
theorem rule_condition_semantics_amended (signals : SignalSet) (text : String) (r : Rule) :
    ruleMatches signals text r = amendedCondMatches signals text r := by
  rcases r with ⟨rid, rv, wa, wat, wall, andt, regs, rsn⟩
  rcases wa with _ | ⟨tso, xo⟩
  · rcases wat with _ | ws <;>
      rcases wall with _ | l1 <;> rcases andt with _ | l2 <;>
        simp [ruleMatches, amendedCondMatches]
  · rcases tso with _ | ts <;> rcases xo with _ | xs <;> rcases wat with _ | ws <;>
      rcases wall with _ | l1 <;> rcases andt with _ | l2 <;>
        simp [ruleMatches, amendedCondMatches, Bool.or_assoc]

/-- C7 counterexample. The claim says a present-but-unparseable or invalid
policy document degrades to an empty rule set without raising; in the code
only `FileNotFoundError` is caught, so an unparseable document propagates
`yaml.YAMLError` and a non-mapping parse result propagates
`AttributeError` — neither returns the empty rule list. -/
theorem policy_degradation_counterexample :
    load_rules PolicyDoc.unparsable ≠ Except.ok ([] : List Rule)
      ∧ load_rules PolicyDoc.parsedNonMapping ≠ Except.ok ([] : List Rule) := by
  constructor <;> simp [load_rules]

/-- C7 amended. Only an absent policy file degrades to the empty rule set
(a parsed mapping without a `rules` key also yields the empty list), and on
an empty rule set `evaluate` returns `ok=false`, empty matched ids and the
reason "No compliance requirements detected" for every input; unparseable
or non-mapping documents instead raise. -/
theorem policy_degradation_amended :
    load_rules PolicyDoc.absent = Except.ok ([] : List Rule)
      ∧ (∀ rs : Option (List Rule),
          load_rules (PolicyDoc.parsedMapping rs) = Except.ok (rs.getD []))
      ∧ (∀ (signals : SignalSet) (text : String),
          evaluate signals text []
            = ⟨false, [], [], "No compliance requirements detected"⟩) :=
  ⟨rfl, fun _ => rfl, fun _ _ => rfl⟩

/-- C9 counterexample. The batch response carries no failure information:
the batch `[c9Good]` (no failures) and the batch `[c9Good, c9Bad]` (one
failure, since the oracle fails on `c9Bad`) produce identical responses,
so the response cannot report a failure count. -/
theorem bulk_failure_count_counterexample :
    bulk_analyze c9Analyze [c9Good] = bulk_analyze c9Analyze [c9Good, c9Bad]
      ∧ c9Analyze c9Bad = none :=
  ⟨rfl, rfl⟩

/-- C9 amended. Failures are isolated: removing a failing item from a batch
leaves the response unchanged, i.e. every remaining item is still processed
and counted; and the response of a nonempty batch reports exactly the number
of successful analyses together with the CSV path — no failure count. -/
theorem bulk_failure_isolation_amended :
    (∀ (f : FeatureArtifact → Option Decision) (xs ys : List FeatureArtifact)
        (b : FeatureArtifact), f b = none → xs ++ ys ≠ [] →
        bulk_analyze f (xs ++ b :: ys) = bulk_analyze f (xs ++ ys))
    ∧ (∀ (f : FeatureArtifact → Option Decision) (items : List FeatureArtifact),
        items ≠ [] →
        bulk_analyze f items
          = Except.ok ⟨(items.filterMap f).length, "data/outputs.csv"⟩) := by
  constructor
  · intro f xs ys b hb hne
    simp [bulk_analyze, hne, List.filterMap_append, List.filterMap_cons, hb]
  · intro f items hne
    simp [bulk_analyze, hne]

/-- C9 witness: the amended isolation theorem applied to the concrete
oracle, with the failing artifact first in the batch. -/
theorem bulk_failure_isolation_witness :
    bulk_analyze c9Analyze ([] ++ c9Bad :: [c9Good])
      = bulk_analyze c9Analyze ([] ++ [c9Good]) :=
  bulk_failure_isolation_amended.1 c9Analyze [] [c9Good] c9Bad rfl (by simp)

/-- C2. Rules Engine first-match short-circuit: whatever follows the first
matching positive-verdict rule is never consulted, the returned verdict is
exactly that rule's; and when no matching rule has a true verdict, the
result is `ok=false` carrying the ids of all matching rules in document
order with the fixed no-match reason. -/
theorem rules_first_match_short_circuit :
    (∀ (signals : SignalSet) (text : String) (pre post : List Rule) (r : Rule),
        (∀ r' ∈ pre, ¬(ruleMatches signals text r' = true ∧ r'.verdict = true)) →
        ruleMatches signals text r = true → r.verdict = true →
        evaluate signals text (pre ++ r :: post)
          = ⟨true, [r.id], r.regulations, defaultReason r⟩)
    ∧ (∀ (signals : SignalSet) (text : String) (rules : List Rule),
        (∀ r ∈ rules, ¬(ruleMatches signals text r = true ∧ r.verdict = true)) →
        evaluate signals text rules
          = ⟨false, (rules.filter (fun r => ruleMatches signals text r)).map Rule.id,
             [], noMatchReason⟩) := by
  constructor
  · intro signals text pre
    induction pre with
    | nil =>
        intro post r _ hm hv
        simp [evaluate, hm, hv]
    | cons r' pre ih =>
        intro post r hpre hm hv
        have hr' : ¬(ruleMatches signals text r' = true ∧ r'.verdict = true) :=
          hpre r' (List.mem_cons_self r' pre)
        have hrec := ih post r (fun x hx => hpre x (List.mem_cons_of_mem r' hx)) hm hv
        by_cases h1 : ruleMatches signals text r' = true
        · have hv' : r'.verdict = false := by
            cases h2 : r'.verdict
            · rfl
            · exact absurd ⟨h1, h2⟩ hr'
          simp [evaluate, h1, hv', hrec]
        · simp [evaluate, h1, hrec]
  · intro signals text rules
    induction rules with
    | nil => intro _; simp [evaluate]
    | cons r rest ih =>
        intro hno
        have hr : ¬(ruleMatches signals text r = true ∧ r.verdict = true) :=
          hno r (List.mem_cons_self r rest)
        have hrec := ih (fun x hx => hno x (List.mem_cons_of_mem r hx))
        by_cases h1 : ruleMatches signals text r = true
        · have hv : r.verdict = false := by
            cases h2 : r.verdict
            · rfl
            · exact absurd ⟨h1, h2⟩ hr
          simp [evaluate, h1, hv, hrec, List.filter_cons]
        · simp [evaluate, h1, hrec, List.filter_cons]

/-- C2 witness: the spec's scenario — a minors/targeted-advertising rule
followed by a second matching positive rule; the first rule's verdict is
returned. -/
theorem rules_first_match_witness :
    evaluate c2Signals c2Text ([] ++ c2RuleA :: [c2RuleB])
      = ⟨true, [c2RuleA.id], c2RuleA.regulations, defaultReason c2RuleA⟩ :=
  rules_first_match_short_circuit.1 c2Signals c2Text [] [c2RuleB] c2RuleA
    (by simp) (by decide) (by decide)

/-- Default values do not matter for the last element of a nonempty list. -/
theorem getLastD_congr (l : List String) (h : l ≠ []) (d1 d2 : String) :
    l.getLastD d1 = l.getLastD d2 := by
  obtain ⟨x, hx⟩ := Option.isSome_iff_exists.mp (List.getLast?_isSome.mpr h)
  simp [List.getLastD_eq_getLast?, hx]

/-- The spec's level reduction agrees with the code's: duplicating the last
element of an odd level and then pairing equals the loop's odd-tail
self-concatenation. -/
theorem specLevel_eq_pairStep : ∀ l : List String, specLevel l = pairStep l
  | [] => rfl
  | [a] => by simp [specLevel, chunkPairs, pairStep]
  | a :: b :: rest => by
      have ih := specLevel_eq_pairStep rest
      by_cases hod : rest.length % 2 = 1
      · have hne : rest ≠ [] := by
          intro hemp
          rw [hemp] at hod
          simp at hod
        have hcond : (a :: b :: rest).length % 2 = 1 := by
          simp only [List.length_cons]
          omega
        have hlast : (a :: b :: rest).getLastD "" = rest.getLastD "" := by
          cases rest with
          | nil => exact absurd rfl hne
          | cons c l' =>
              rw [List.getLastD_cons, List.getLastD_cons]
              exact getLastD_congr (c :: l') (by simp) b ""
        calc specLevel (a :: b :: rest)
            = chunkPairs ((a :: b :: rest) ++ [(a :: b :: rest).getLastD ""]) := by
              unfold specLevel
              rw [if_pos hcond]
          _ = compute_sha256 (a ++ b) :: chunkPairs (rest ++ [(a :: b :: rest).getLastD ""]) := by
              simp only [List.cons_append, chunkPairs, List.append_eq]
          _ = compute_sha256 (a ++ b) :: chunkPairs (rest ++ [rest.getLastD ""]) := by
              rw [hlast]
          _ = compute_sha256 (a ++ b) :: specLevel rest := by
              unfold specLevel
              rw [if_pos hod]
          _ = compute_sha256 (a ++ b) :: pairStep rest := by rw [ih]
          _ = pairStep (a :: b :: rest) := by simp only [pairStep]
      · have hcond : ¬((a :: b :: rest).length % 2 = 1) := by
          simp only [List.length_cons]
          omega
        calc specLevel (a :: b :: rest)
            = chunkPairs (a :: b :: rest) := by
              unfold specLevel
              rw [if_neg hcond]
          _ = compute_sha256 (a ++ b) :: chunkPairs rest := by simp only [chunkPairs]
          _ = compute_sha256 (a ++ b) :: specLevel rest := by
              unfold specLevel
              rw [if_neg hod]
          _ = compute_sha256 (a ++ b) :: pairStep rest := by rw [ih]
          _ = pairStep (a :: b :: rest) := by simp only [pairStep]

/-- C4. Merkle aggregation: empty input yields the empty-string sentinel,
a singleton is returned unchanged, a level of two or more hashes is reduced
by the spec's pairwise-concatenate-and-rehash step (odd tail duplicated)
and recursed on, and the three-element case equals the hand-computed
`sha256(sha256(h1+h2) + sha256(h3+h3))`. -/
theorem merkle_root_spec :
    merkle_root ([] : List String) = ""
    ∧ (∀ h : String, merkle_root [h] = h)
    ∧ (∀ l : List String, 2 ≤ l.length → merkle_root l = merkle_root (specLevel l))
    ∧ (∀ h1 h2 h3 : String,
        merkle_root [h1, h2, h3]
          = compute_sha256 (compute_sha256 (h1 ++ h2) ++ compute_sha256 (h3 ++ h3))) := by
  refine ⟨by simp [merkle_root], fun h => by simp [merkle_root], ?_, ?_⟩
  · intro l hl
    match l with
    | [] => simp at hl
    | [a] => simp at hl
    | a :: b :: rest =>
        rw [specLevel_eq_pairStep]
        simp [merkle_root]
  · intro h1 h2 h3
    simp [merkle_root, pairStep]

/-- C4 witness: the level-reduction clause applied to a concrete
three-element list. -/
theorem merkle_root_spec_witness :
    (2 ≤ (["a", "b", "c"] : List String).length)
      ∧ merkle_root ["a", "b", "c"] = merkle_root (specLevel ["a", "b", "c"]) :=
  ⟨by decide, merkle_root_spec.2.2.1 ["a", "b", "c"] (by decide)⟩

/-- C6. Determinism of the deterministic stages: the extracted `SignalSet`
depends only on title, description, code hints and tags (identical inputs
give equal outputs whatever the other fields are), tags are copied verbatim,
hints are the code hints, text signals are exactly the pattern-table matches
on the lowercased concatenated text, and `evaluate` yields equal verdicts on
equal inputs. -/
theorem deterministic_stages :
    (∀ a1 a2 : FeatureArtifact,
        a1.title = a2.title → a1.description = a2.description →
        a1.code_hints = a2.code_hints → a1.tags = a2.tags →
        extract_signals a1 = extract_signals a2)
    ∧ (∀ a : FeatureArtifact,
        (extract_signals a).tags = a.tags.toFinset
          ∧ (extract_signals a).hints = a.code_hints
          ∧ (extract_signals a).text_signals
            = ((patternTable.filter (fun p => p.2 (lowerChars (artifactText a).data))).map
                (fun p => p.1)).toFinset)
    ∧ (∀ (rules : List Rule) (s1 s2 : SignalSet) (t1 t2 : String),
        s1 = s2 → t1 = t2 → evaluate s1 t1 rules = evaluate s2 t2 rules) := by
  refine ⟨?_, fun a => ⟨rfl, rfl, rfl⟩, ?_⟩
  · intro a1 a2 h1 h2 h3 h4
    unfold extract_signals artifactText
    rw [h1, h2, h3, h4]
  · intro rules s1 s2 t1 t2 hs ht
    rw [hs, ht]

/-- C6 witness: two artifacts agreeing on title, description, code hints
and tags but differing in id and docs extract the same signals. -/
theorem deterministic_stages_witness :
    extract_signals c6A1 = extract_signals c6A2 :=
  deterministic_stages.1 c6A1 c6A2 rfl rfl rfl rfl

/-- With no header keyword on any line, `parseFinderGo` stays in the
`none` section and appends nothing. -/
theorem parseFinderGo_headerfree (lines : List String) (acc : FinderOut)
    (h : ∀ l ∈ lines,
        upContains (stripChars l.data) "SIGNAL" = false
          ∧ upContains (stripChars l.data) "CLAIM" = false
          ∧ upContains (stripChars l.data) "CITATION" = false) :
    parseFinderGo lines FSection.none acc = acc := by
  induction lines with
  | nil => rfl
  | cons l rest ih =>
      obtain ⟨h1, h2, h3⟩ := h l (List.mem_cons_self l rest)
      have hrest := ih (fun x hx => h x (List.mem_cons_of_mem l hx))
      simp [parseFinderGo, h1, h2, h3, hrest]

set_option maxHeartbeats 1000000 in
/-- No branch of the natural-language compliance parser ever writes the
`raw_response` field. -/
theorem parseComplianceGo_raw (lines : List String) :
    ∀ (sec : FSection) (acc : ComplianceFinder),
      (parseComplianceGo lines sec acc).raw_response = acc.raw_response := by
  induction lines with
  | nil => intro sec acc; rfl
  | cons l rest ih =>
      intro sec acc
      simp only [parseComplianceGo]
      split_ifs <;> simp only [ih]

/-- C8 counterexample. The headerless response `"hello world."` does not
yield empty lists with the raw text preserved: the permissive
length-over-two branch files the whole line into `signals`, and the
non-exception path never populates a raw-text field. -/
theorem parser_resilience_counterexample :
    (parse_compliance_finder "hello world.").signals = ["hello world."]
      ∧ (parse_compliance_finder "hello world.").raw_response = none := by
  constructor <;> rfl

/-- C8 amended. `_parse_finder_response` (which only collects bullet lines
into an active section) returns empty lists on a response none of whose
stripped lines contains a section keyword — but preserves no raw text, its
result type has no such field; the raw text is preserved (with empty lists)
only by the exception fallback of `_parse_compliance_response`, whose
non-exception path never sets `raw_response` and files stripped lines
longer than two characters into `signals` even with no active section. -/
theorem parser_resilience_amended :
    (∀ response : String,
        (∀ l ∈ splitLines response,
            upContains (stripChars l.data) "SIGNAL" = false
              ∧ upContains (stripChars l.data) "CLAIM" = false
              ∧ upContains (stripChars l.data) "CITATION" = false) →
        parse_finder_response response = ⟨[], [], []⟩)
    ∧ (∀ response : String,
        complianceFinderFallback response = ⟨[], [], [], some response⟩)
    ∧ (∀ response : String, (parse_compliance_finder response).raw_response = none) := by
  refine ⟨?_, fun _ => rfl, ?_⟩
  · intro response h
    exact parseFinderGo_headerfree _ _ h
  · intro response
    exact parseComplianceGo_raw _ _ _

/-- C8 witness: the amended theorem applied to a concrete headerless
response with a prose line and a bullet line. -/
theorem parser_resilience_witness :
    parse_finder_response "just prose line\n- bullet item" = ⟨[], [], []⟩ :=
  parser_resilience_amended.1 "just prose line\n- bullet item" (by decide)

set_option maxRecDepth 100000 in
/-- C5. Receipt hash stability: decisions with identical content apart from
the hash field commit to identical hashes; the committed hash is
`"sha256-"` plus the hex digest of the canonical serialization; and at the
spec's own example, changing only the confidence from 0.8 to 0.81 changes
the hash. -/
theorem receipt_hash_stability :
    (∀ d1 d2 : Decision, eraseHash d1 = eraseHash d2 → receiptHash d1 = receiptHash d2)
    ∧ (∀ d : Decision, receiptHash d = "sha256-" ++ compute_sha256 (canonical_json d))
    ∧ receiptHash c5DecA ≠ receiptHash c5DecB := by
  refine ⟨?_, fun d => rfl, ?_⟩
  · intro d1 d2 h
    have hc : canonical_json d1 = canonical_json d2 := by
      rw [← canonical_json_eraseHash d1, ← canonical_json_eraseHash d2, h]
    unfold receiptHash
    rw [hc]
  · decide

/-- C5 witness: the stability clause applied to two concrete decisions that
differ only in the hash field. -/
theorem receipt_hash_stability_witness :
    receiptHash c5DecAHash = receiptHash c5DecA :=
  receipt_hash_stability.1 c5DecAHash c5DecA rfl

/-- C10. Receipt self-verifiability: the line appended by `write_receipt`
is the serialization of the decision whose hash field was overwritten with
the computed receipt hash, and that persisted decision verifies from its own
content: its stored hash equals `"sha256-"` plus the SHA-256 hex digest of
its sorted-key canonical serialization with the hash field removed. -/
theorem receipt_self_verifiability (d : Decision) :
    receiptLine d = line_json (writtenDecision d)
      ∧ (writtenDecision d).hash = receiptHash d
      ∧ verifyReceipt (writtenDecision d) = true := by
  refine ⟨rfl, rfl, ?_⟩
  unfold verifyReceipt
  rw [canonical_json_writtenDecision]
  exact beq_self_eq_true _

end GeoGov
